import Mathlib

/-!
# minecraftd: the lifecycle supervisor of `minecraft/minecraft.go` and the webhooks

A shallow embedding of the two Go source files.  The package-level variables
`server`, `serverStdin` and `updating` become fields of `World`; the file
system, the network and the clock are part of the same record.  Every call
that leaves the supervisor (a write to the child's input, a sleep, a file
system call, a notification) appends an `Effect` to `World.trace`, and the
value of the shared variables after each step is appended to `World.seen`.

Scope of the model:
* the file system is the layout the program names: the persistent volume
  `/data`, the alias `bedrock-server` and the directories
  `bedrock-server-<version>`; entries of `/data` are plain files or
  directories, entries of an install directory may also be links into `/data`;
* outcomes decided outside the program (does the download succeed, does the
  child start, does waiting for it succeed) are read from `Env`;
* goroutines are not interleaved: each function is run to completion.
-/

namespace Minecraftd

/-! ## File system -/

/-- Association list keyed by file or directory name. -/
abbrev Table (α : Type) := List (String × α)

/-- Value stored under a name, if any (first match). -/
def Table.get {α : Type} : Table α → String → Option α
  | [], _ => none
  | (k, v) :: rest, name => if k = name then some v else Table.get rest name

/-- Table without the entries stored under a name. -/
def Table.erase {α : Type} : Table α → String → Table α
  | [], _ => []
  | (k, v) :: rest, name =>
    if k = name then Table.erase rest name else (k, v) :: Table.erase rest name

/-- Table in which the name holds the given value and nothing else. -/
def Table.put {α : Type} (t : Table α) (name : String) (v : α) : Table α :=
  (name, v) :: Table.erase t name

/-- Regular file with its content, or directory with the files below it. -/
inductive Node where
  | file (content : String)
  | dir (children : Table String)
  deriving DecidableEq, Repr

/-- Entry of an install directory: a node, or a symbolic link to `/data/<dataName>`. -/
inductive Entry where
  | node (n : Node)
  | link (dataName : String)
  deriving DecidableEq, Repr

/-- The paths the supervisor names. -/
inductive Path where
  /-- The directory `/data`. -/
  | dataDir
  /-- The entry `/data/<name>`. -/
  | data (name : String)
  /-- The alias `bedrock-server`. -/
  | stableAlias
  /-- The entry `bedrock-server/<name>`, reached through the alias. -/
  | app (name : String)
  /-- The directory `bedrock-server-<version>`. -/
  | install (version : String)
  /-- The entry `bedrock-server-<version>/<name>`. -/
  | installFile (version : String) (name : String)
  deriving DecidableEq, Repr

/-- File system state. -/
structure FS where
  /-- Entries of `/data`; `none` when the directory does not exist. -/
  data : Option (Table Node)
  /-- The symbolic link `bedrock-server`: the version whose directory it points at. -/
  aliasTarget : Option String
  /-- The directories `bedrock-server-<version>`, by version. -/
  installs : Table (Table Entry)
  deriving DecidableEq, Repr

/-- Result of `os.Stat` as the program inspects it: `err == nil` or `os.IsNotExist(err)`. -/
inductive StatResult where
  | ok
  | notExist
  deriving DecidableEq, Repr

/-- Directory the alias resolves to. -/
def FS.active (fs : FS) : Option (Table Entry) :=
  match fs.aliasTarget with
  | none => none
  | some v => fs.installs.get v

/-- Node a path resolves to, following symbolic links. -/
def FS.resolve (fs : FS) : Path → Option Node
  | .dataDir => match fs.data with
    | none => none
    | some t => some (.dir (t.map fun e => (e.1, "")))
  | .data name => match fs.data with
    | none => none
    | some t => t.get name
  | .stableAlias => match fs.active with
    | none => none
    | some t => some (.dir (t.map fun e => (e.1, "")))
  | .app name => match fs.active with
    | none => none
    | some t => match t.get name with
      | none => none
      | some (.node n) => some n
      | some (.link d) => match fs.data with
        | none => none
        | some dt => dt.get d
  | .install v => match fs.installs.get v with
    | none => none
    | some t => some (.dir (t.map fun e => (e.1, "")))
  | .installFile v name => match fs.installs.get v with
    | none => none
    | some t => match t.get name with
      | none => none
      | some (.node n) => some n
      | some (.link d) => match fs.data with
        | none => none
        | some dt => dt.get d

/-- The call `os.Stat(path)`. -/
def FS.stat (fs : FS) (p : Path) : StatResult :=
  match fs.resolve p with
  | some _ => .ok
  | none => .notExist

/-- The call `os.ReadFile(path)`: the content of a regular file. -/
def FS.readFile (fs : FS) (p : Path) : Option String :=
  match fs.resolve p with
  | some (.file c) => some c
  | _ => none

/-- The call `os.Remove(path)` for the alias and for an entry of the active
install directory: it removes a file, a link or an empty directory and does
not follow a link. -/
def FS.remove (fs : FS) : Path → Option FS
  | .stableAlias => match fs.aliasTarget with
    | none => none
    | some _ => some { fs with aliasTarget := none }
  | .app name => match fs.aliasTarget with
    | none => none
    | some v => match fs.installs.get v with
      | none => none
      | some t => match t.get name with
        | none => none
        | some (.node (.dir (_ :: _))) => none
        | some _ => some { fs with installs := fs.installs.put v (t.erase name) }
  | _ => none

/-- The call `os.Symlink(target, link)` for the two links the program creates:
the alias pointing at an install directory and an entry of the active install
directory pointing into `/data`.  It fails when the link path already exists. -/
def FS.symlink (fs : FS) : Path → Path → Option FS
  | .install v, .stableAlias => match fs.aliasTarget with
    | some _ => none
    | none => some { fs with aliasTarget := some v }
  | .data d, .app name => match fs.aliasTarget with
    | none => none
    | some v => match fs.installs.get v with
      | none => none
      | some t => match t.get name with
        | some _ => none
        | none => some { fs with installs := fs.installs.put v (t.put name (.link d)) }
  | _, _ => none

/-- Modelled from the spec: `utils.Copy(src, dst)` is not among the sources.
The spec has each data entry "copied into a persistent data location":
the node the source resolves to is stored under `/data/<name>`; the call
fails when the source does not resolve or `/data` does not exist. -/
def FS.copy (fs : FS) (src : Path) : Path → Option FS
  | .data name => match fs.resolve src, fs.data with
    | some n, some t => some { fs with data := some (t.put name n) }
    | _, _ => none
  | _ => none

/-- The call `os.WriteFile(path, content, 0666)` for a file of an install directory. -/
def FS.writeFile (fs : FS) (p : Path) (content : String) : Option FS :=
  match p with
  | .installFile v name => match fs.installs.get v with
    | none => none
    | some t => some { fs with installs := fs.installs.put v (t.put name (.node (.file content))) }
  | _ => none

/-! ## World -/

/-- The command built by `exec.Command` with its working directory. -/
structure Cmd where
  path : String
  dir : String
  deriving DecidableEq, Repr

/-- The write end of the child's standard input. -/
structure Pipe where
  closed : Bool
  deriving DecidableEq, Repr

/-- Outcome of fetching the download page: `http.Get` failed, reading the body
failed, or a body from which the two regular expressions extract a version
(`none` when they match nothing). -/
inductive Fetch where
  | getError
  | readError
  | page (version : Option String)
  deriving DecidableEq, Repr

/-- The goroutines `Shutdown` can launch. -/
inductive Routine where
  | stop
  | terminate
  deriving DecidableEq, Repr

/-- What the supervisor does to the outside, one constructor per kind of call. -/
inductive Effect where
  | log (msg : String)
  | write (line : String)
  | sleep (milliseconds : Nat)
  | wait
  | close
  | stopped
  | started (version : String)
  | healthChecked (ok : Bool)
  | fatal (msg : String)
  | runtimePanic
  | httpGet
  | create (version : String)
  | download (version : String)
  | unzip (version : String)
  | writeFile (path : Path) (content : String)
  | readFile (path : Path)
  | stat (path : Path)
  | copy (src : Path) (dst : Path)
  | remove (path : Path)
  | symlink (target : Path) (link : Path)
  | chmod (path : Path)
  | command (path : String)
  | stdinPipe
  | spawn
  | setServerNil
  | setStdinNil
  | setUpdating (value : Bool)
  | go (routine : Routine)
  | respond (text : String)
  | kill (signal : Nat)
  | exit (code : Nat)
  deriving DecidableEq, Repr

/-- The shared variables a concurrent reader can observe. -/
structure Shared where
  /-- Whether `server != nil`. -/
  server : Bool
  updating : Bool
  deriving DecidableEq, Repr

/-- Outcomes decided outside the program. -/
structure Env where
  /-- Files of the downloaded package. -/
  archive : Table Entry
  /-- Parsing the download URL and creating the zip file succeed. -/
  createOk : Bool
  /-- Downloading into the zip file succeeds. -/
  downloadOk : Bool
  /-- `utils.Unzip` succeeds. -/
  unzipOk : Bool
  /-- `server.StdinPipe()` succeeds. -/
  pipeOk : Bool
  /-- `server.Start()` succeeds. -/
  startOk : Bool
  /-- `server.Process.Wait()` succeeds. -/
  waitOk : Bool
  deriving DecidableEq, Repr

/-- Program state: the package variables, the file system, the pending
answers of the download page, and what has happened so far. -/
structure World where
  server : Option Cmd
  serverStdin : Option Pipe
  updating : Bool
  fs : FS
  net : List Fetch
  trace : List Effect
  seen : List Shared
  deriving DecidableEq, Repr

/-- Record one step: the effect, and the shared variables after it. -/
def World.emit (w : World) (e : Effect) : World :=
  { w with trace := w.trace ++ [e], seen := w.seen ++ [⟨w.server.isSome, w.updating⟩] }

/-- A function either returns, or the whole program stops. -/
inductive Result (α : Type) where
  | ok (val : α) (w : World)
  | abort (w : World)
  deriving Repr

/-- The world in which a call ended. -/
def Result.world {α : Type} : Result α → World
  | .ok _ w => w
  | .abort w => w

/-- Modelled from the spec: `utils.Fatal` is not among the sources.  The spec
calls these failures fatal: "the supervisor aborts the whole program". -/
def fatal {α : Type} (msg : String) (w : World) : Result α :=
  .abort (w.emit (.fatal msg))

/-- A Go run-time panic (nil dereference, index out of range) outside any `recover`. -/
def goPanic {α : Type} (w : World) : Result α :=
  .abort (w.emit .runtimePanic)

/-- The call `serverStdin.Write([]byte(msg))`; the returned error is dropped by
every caller, a nil `serverStdin` panics. -/
def write (msg : String) (w : World) : Result Unit :=
  match w.serverStdin with
  | none => goPanic w
  | some _ => .ok () (w.emit (.write msg))

/-- The call `time.Sleep(time.Second * time.Duration(n))`. -/
def sleepSeconds (n : Nat) (w : World) : World :=
  w.emit (.sleep (1000 * n))

/-! ## `minecraft.go` -/

/-- The function `terminate`. -/
def terminate (env : Env) (w : World) : Result Unit :=
  let msg := "say shutting down NOW...\n"
  let w := w.emit (.log (msg ++ "\n"))
  match write msg w with
  | .abort w => .abort w
  | .ok _ w =>
    let w := sleepSeconds 5 w
    match write "stop\n" w with
    | .abort w => .abort w
    | .ok _ w =>
      match w.server with
      | none => goPanic w
      | some _ =>
        let w := w.emit .wait
        if !env.waitOk then fatal "wait" w else
        let w := ({ w with serverStdin := w.serverStdin.map fun _ => ⟨true⟩ }).emit .close
        let w := w.emit .stopped
        let w := w.emit (.log "Stopped bedrock_server\n")
        let w := ({ w with server := none }).emit .setServerNil
        let w := ({ w with serverStdin := none }).emit .setStdinNil
        .ok () w

/-- The loop of `stop`: `for i := n; i > 0; i--`. -/
def countdown (n : Nat) (w : World) : Result Unit :=
  match n with
  | 0 => .ok () w
  | i + 1 =>
    let msg := "say shutting down in " ++ toString ((i + 1) * 5) ++ " seconds...\n"
    let w := w.emit (.log (msg ++ "\n"))
    match write msg w with
    | .abort w => .abort w
    | .ok _ w => countdown i (sleepSeconds 5 w)

/-- The function `stop`. -/
def stop (env : Env) (w : World) : Result Unit :=
  match countdown 6 w with
  | .abort w => .abort w
  | .ok _ w => terminate env w

/-- One fetch of the download page: `http.Get(minecraftnet)` and `ioutil.ReadAll`.
The answers come from `World.net`; with none left the request fails. -/
def httpGet (w : World) : Fetch × World :=
  match w.net with
  | [] => (.getError, w.emit .httpGet)
  | f :: rest => (f, ({ w with net := rest }).emit .httpGet)

/-- Whether a fetch ended in an error return (`http.Get` or `ioutil.ReadAll` failed). -/
def Fetch.failed : Fetch → Bool
  | .getError => true
  | .readError => true
  | .page _ => false

/-- The function `downloadBedrockServer`; `none` is the error return.
`utils.Unzip` is not among the sources: it is modelled from the spec as
creating the directory of the version with the files of the package.  The
zip file of the working directory is created and removed inside the call and
is not part of `FS`. -/
def downloadBedrockServer (env : Env) (w : World) : Result (Option String) :=
  let w := w.emit (.log "Gathering latest minecraft version\n")
  match httpGet w with
  | (.getError, w) => .ok none w
  | (.readError, w) => .ok none w
  | (.page none, w) => goPanic w
  | (.page (some version), w) =>
    let w := w.emit (.log ("Version: " ++ version ++ "\n"))
    let w := w.emit (.create version)
    if !env.createOk then .ok none w else
    let w := w.emit (.log ("Downloading latest Minecraft Bedrock version: " ++ version ++ "\n"))
    let w := w.emit (.download version)
    if !env.downloadOk then .ok none w else
    let w := w.emit (.log ("Unzipping latest Minecraft Bedrock version: " ++ version ++ "\n"))
    if !env.unzipOk then .ok none (w.emit (.unzip version)) else
    let w := ({ w with fs := { w.fs with installs := w.fs.installs.put version env.archive } }).emit
      (.unzip version)
    let w := ({ w with fs := (w.fs.writeFile (.installFile version "version") version).getD w.fs }).emit
      (.writeFile (.installFile version "version") version)
    let w := w.emit
      (.log ("Completed downloading latest Minecraft Bedrock server version: " ++ version ++ "\n"))
    .ok (some version) w

/-- The calls `os.Remove(app)` and `os.Symlink(data, app)` of `symlink`, both with
the error dropped. -/
def relink (data app : Path) (w : World) : World :=
  let w := ({ w with fs := (w.fs.remove app).getD w.fs }).emit (.remove app)
  ({ w with fs := (w.fs.symlink data app).getD w.fs }).emit (.symlink data app)

/-- The function `symlink`. -/
def symlink (name : String) (w : World) : World :=
  let data := Path.data name
  let app := Path.app name
  let w := w.emit (.stat .dataDir)
  if w.fs.stat .dataDir = .notExist then w else
  let w := w.emit (.stat app)
  if w.fs.stat app = .notExist then w else
  let w := w.emit (.stat data)
  if w.fs.stat data = .notExist then
    let w := w.emit (.stat app)
    if w.fs.stat app = .ok then
      let w := w.emit (.copy app data)
      match w.fs.copy app data with
      | some fs => relink data app { w with fs := fs }
      | none => w
    else w
  else w

/-- The function `start`. -/
def start (env : Env) (version : String) (w : World) : Result Unit :=
  let w := w.emit (.log "Starting bedrock_server...\n")
  let w := ({ w with server := some ⟨"./bedrock_server", "bedrock-server"⟩ }).emit
    (.command "./bedrock_server")
  if !env.pipeOk then
    fatal "An error occurred while redirecting Stdin" (({ w with serverStdin := none }).emit .stdinPipe)
  else
  let w := ({ w with serverStdin := some ⟨false⟩ }).emit .stdinPipe
  let w := w.emit .spawn
  if !env.startOk then fatal "An error occurred while starting the bedrock_server" w else
  let w := w.emit (.log "Started bedrock_server\n")
  .ok () (w.emit (.started version))

/-- The function `checkForUpdates`: whether an update is available, the remote
version, and whether an error is returned. -/
def checkForUpdates (w : World) : Result (Bool × Option String × Bool) :=
  let w := w.emit (.readFile (.app "version"))
  match w.fs.readFile (.app "version") with
  | none => fatal "read bedrock-server/version" w
  | some version =>
    let w := w.emit (.log ("Current: " ++ version ++ "\n"))
    let w := w.emit (.log "Gathering latest minecraft version\n")
    match httpGet w with
    | (.getError, w) => .ok (false, none, true) w
    | (.readError, w) => .ok (false, none, true) w
    | (.page none, w) => goPanic w
    | (.page (some onlineversion), w) =>
      let w := w.emit (.log ("Available: " ++ onlineversion ++ "\n"))
      .ok (decide (version ≠ onlineversion), some onlineversion, false) w

/-- The function `initializeDirectory`. -/
def initializeDirectory (version : String) (w : World) : Result Unit :=
  let w := w.emit (.symlink (.install version) .stableAlias)
  match w.fs.symlink (.install version) .stableAlias with
  | none => fatal "An error occurred while creating symlink to bedrock-server" w
  | some fs =>
    let w := { w with fs := fs }
    let w := w.emit (.chmod (.app "bedrock_server"))
    let w := symlink "worlds" w
    let w := symlink "server.properties" w
    let w := symlink "permissions.json" w
    let w := symlink "whitelist.json" w
    .ok () w

/-- The function `install`. -/
def install (env : Env) (w : World) : Result String :=
  let w := w.emit (.log "Installing latest Minecraft Bedrock Server...\n")
  match downloadBedrockServer env w with
  | .abort w => .abort w
  | .ok none w => fatal "An error occurred while downloading the Minecraft Bedrock server" w
  | .ok (some version) w =>
    match initializeDirectory version w with
    | .abort w => .abort w
    | .ok _ w => .ok version w

/-- The part of `update` that stops a running server: `if server != nil { ... }`. -/
def stopForUpdate (env : Env) (w : World) : Result Unit :=
  match w.server with
  | none => .ok () w
  | some _ =>
    let w := ({ w with updating := true }).emit (.setUpdating true)
    let w := w.emit (.log "Stopping bedrock_server...\n")
    stop env w

/-- The part of `update` that removes the alias: `if _, err := os.Stat(..); err == nil { os.Remove(..) }`. -/
def removeAlias (w : World) : World :=
  let w := w.emit (.stat .stableAlias)
  if w.fs.stat .stableAlias = .ok then
    ({ w with fs := (w.fs.remove .stableAlias).getD w.fs }).emit (.remove .stableAlias)
  else w

/-- The function `update`; the result is the returned `*string`. -/
def update (env : Env) (w : World) : Result (Option String) :=
  let w := w.emit (.log "Checking for Minecraft Bedrock Server updates...\n")
  match checkForUpdates w with
  | .abort w => .abort w
  | .ok (isUpdateAvailable, version, err) w =>
    let w := if err then
      w.emit (.log "An error occurred while checking for the latest version\n") else w
    if !isUpdateAvailable then .ok version w else
    let w := w.emit (.log "A newer version is available, downloading...\n")
    match downloadBedrockServer env w with
    | .abort w => .abort w
    | .ok none w => fatal "An error occurred while downloading the Minecraft Bedrock server" w
    | .ok (some version) w =>
      match stopForUpdate env w with
      | .abort w => .abort w
      | .ok _ w =>
        match initializeDirectory version (removeAlias w) with
        | .abort w => .abort w
        | .ok _ w => .ok (some version) w

/-- The function `Startup`. -/
def Startup (env : Env) (w : World) : Result Unit :=
  let w := w.emit (.stat .stableAlias)
  if w.fs.stat .stableAlias = .notExist then
    match install env w with
    | .abort w => .abort w
    | .ok version w => start env version w
  else
    start env "1.10.0.7" w

/-- Signal number of `syscall.SIGQUIT`. -/
def SIGQUIT : Nat := 3

/-- Signal number of `syscall.SIGTERM`. -/
def SIGTERM : Nat := 15

/-- The function `Shutdown`: the goroutine it launches is recorded, not run. -/
def Shutdown (s : Nat) (w : World) : World :=
  let w := w.emit (.log "Stopping bedrock_server...\n")
  if s = SIGQUIT then w.emit (.go .stop) else w.emit (.go .terminate)

/-- Body of a launched goroutine. -/
def Routine.run (env : Env) : Routine → World → Result Unit
  | .stop => Minecraftd.stop env
  | .terminate => Minecraftd.terminate env

/-- The goroutines launched so far, in order. -/
def launched (t : List Effect) : List Routine :=
  t.filterMap fun e => match e with
    | .go r => some r
    | _ => none

/-- One iteration of the goroutine of `Wait`: sleep six hours, `update`, and
restart when `updating` is set. -/
def pollerStep (env : Env) (w : World) : Result Unit :=
  let w := w.emit (.sleep (1000 * 3600 * 6))
  match update env w with
  | .abort w => .abort w
  | .ok version w =>
    if w.updating then
      match version with
      | none => goPanic w
      | some v =>
        match start env v w with
        | .abort w => .abort w
        | .ok _ w => .ok () (({ w with updating := false }).emit (.setUpdating false))
    else .ok () w

/-- The shared variables as the waiter reads them. -/
def World.shared (w : World) : Shared := ⟨w.server.isSome, w.updating⟩

/-- The condition of the loop of `Wait`: `server == nil && !updating`. -/
def exitCondition (s : Shared) : Bool := !s.server && !s.updating

/-- One iteration of the foreground loop of `Wait`; `os.Exit(0)` ends the program. -/
def waiterStep (w : World) : Result Unit :=
  let w := w.emit (.sleep 500)
  if exitCondition w.shared then .abort (w.emit (.exit 0)) else .ok () w

/-- The function `HealthCheck`. -/
def HealthCheck (w : World) : World :=
  w.emit (.healthChecked true)

/-! ## `webhooks.go` -/

/-- The function `shutdownHandler`. -/
def shutdownHandler (w : World) : World :=
  let w := w.emit (.respond "Shutdown request received. Shutting down in 30 seconds...\n")
  w.emit (.kill SIGQUIT)

/-- The function `shutdownNowHandler`. -/
def shutdownNowHandler (w : World) : World :=
  let w := w.emit (.respond "Shutdown request received. Shutting down server NOW...\n")
  w.emit (.kill SIGTERM)

/-- The function `msgHandler`. -/
def msgHandler (w : World) : World :=
  w.emit (.respond "Sending message to players\n")

/-- The routes registered by `webhooks.Start`. -/
def route (pattern : String) : Option (World → World) :=
  if pattern = "/webhooks/shutdown" then some shutdownHandler
  else if pattern = "/webhooks/shutdown/now" then some shutdownNowHandler
  else if pattern = "/webhooks/msg" then some msgHandler
  else none

/-- The signals raised so far, in order. -/
def raised (t : List Effect) : List Nat :=
  t.filterMap fun e => match e with
    | .kill s => some s
    | _ => none

/-! ## Reading a trace -/

/-- Whether an effect is a line of the supervisor's own log. -/
def Effect.isLog : Effect → Bool
  | .log _ => true
  | _ => false

/-- The trace without the log lines. -/
def effects (t : List Effect) : List Effect :=
  t.filter fun e => !e.isLog

/-- Whether an effect is one of the calls `symlink` makes: a stat, copy, remove
or link on `/data`, `/data/<name>` or `bedrock-server/<name>`. -/
def Effect.isDataLinkOp : Effect → Bool
  | .stat .dataDir => true
  | .stat (.data _) => true
  | .stat (.app _) => true
  | .copy (.app _) (.data _) => true
  | .remove (.app _) => true
  | .symlink (.data _) (.app _) => true
  | _ => false

/-- The stages of an update, as the spec names them. -/
inductive Phase where
  | provisioned (version : String)
  | shutdown
  | aliasRemoved
  | aliasCreated (version : String)
  | dataLinks
  | restarted
  | flagCleared
  | started (version : String)
  deriving DecidableEq, Repr

/-- The stage an effect belongs to; log lines, sleeps, the version check and
the raising of `updating` belong to none. -/
def phase : Effect → Option Phase
  | .create v => some (.provisioned v)
  | .download v => some (.provisioned v)
  | .unzip v => some (.provisioned v)
  | .writeFile (.installFile v _) _ => some (.provisioned v)
  | .write _ => some .shutdown
  | .wait => some .shutdown
  | .close => some .shutdown
  | .stopped => some .shutdown
  | .setServerNil => some .shutdown
  | .setStdinNil => some .shutdown
  | .stat .stableAlias => some .aliasRemoved
  | .remove .stableAlias => some .aliasRemoved
  | .symlink (.install v) .stableAlias => some (.aliasCreated v)
  | .stat .dataDir => some .dataLinks
  | .stat (.data _) => some .dataLinks
  | .stat (.app _) => some .dataLinks
  | .copy (.app _) (.data _) => some .dataLinks
  | .remove (.app _) => some .dataLinks
  | .symlink (.data _) (.app _) => some .dataLinks
  | .command _ => some .restarted
  | .stdinPipe => some .restarted
  | .spawn => some .restarted
  | .setUpdating false => some .flagCleared
  | .started v => some (.started v)
  | _ => none

/-- Runs of equal neighbours collapsed to one element. -/
def compress : List Phase → List Phase
  | [] => []
  | a :: rest =>
    match rest with
    | [] => [a]
    | b :: _ => if a = b then compress rest else a :: compress rest

/-- The stages a trace goes through, in order. -/
def phases (t : List Effect) : List Phase :=
  compress (t.filterMap phase)

/-- The safety condition of the waiter on one observed state: the handle is
present or an update is in flight. -/
def Shared.safe (s : Shared) : Bool := s.server || s.updating

/-! ## Notions used in the statements -/

/-- Nothing is left for `symlink` to do: `/data` is missing, the entry of the
install directory is missing, or the persistent copy exists. -/
def Settled (name : String) (fs : FS) : Prop :=
  fs.stat .dataDir = .notExist ∨ fs.stat (.app name) = .notExist ∨ fs.stat (.data name) = .ok

/-- From position `n` on every observed state is safe, and so is the current one. -/
def Inv (n : Nat) (w : World) : Prop :=
  n ≤ w.seen.length ∧ (∀ s ∈ w.seen.drop n, s.safe = true) ∧
    (w.server.isSome || w.updating) = true

/-- What `terminate` adds to the trace when it runs to the end. -/
def immediateTrace : List Effect :=
  [.log ("say shutting down NOW...\n" ++ "\n"), .write "say shutting down NOW...\n",
   .sleep 5000, .write "stop\n", .wait, .close, .stopped,
   .log "Stopped bedrock_server\n", .setServerNil, .setStdinNil]

/-- The effects of a graceful shutdown, log lines apart. -/
def gracefulEffects : List Effect :=
  [.write "say shutting down in 30 seconds...\n", .sleep 5000,
   .write "say shutting down in 25 seconds...\n", .sleep 5000,
   .write "say shutting down in 20 seconds...\n", .sleep 5000,
   .write "say shutting down in 15 seconds...\n", .sleep 5000,
   .write "say shutting down in 10 seconds...\n", .sleep 5000,
   .write "say shutting down in 5 seconds...\n", .sleep 5000,
   .write "say shutting down NOW...\n", .sleep 5000, .write "stop\n", .wait, .close,
   .stopped, .setServerNil, .setStdinNil]

/-- The four calls of `symlink` at the end of `initializeDirectory`. -/
def dataLinks (w : World) : World :=
  symlink "whitelist.json" (symlink "permissions.json" (symlink "server.properties"
    (symlink "worlds" w)))

/-- What `downloadBedrockServer` adds to the trace when every step succeeds. -/
def downloadTrace (v : String) : List Effect :=
  [.log "Gathering latest minecraft version\n", .httpGet, .log ("Version: " ++ v ++ "\n"),
   .create v, .log ("Downloading latest Minecraft Bedrock version: " ++ v ++ "\n"), .download v,
   .log ("Unzipping latest Minecraft Bedrock version: " ++ v ++ "\n"), .unzip v,
   .writeFile (.installFile v "version") v,
   .log ("Completed downloading latest Minecraft Bedrock server version: " ++ v ++ "\n")]

/-- What `start` adds to the trace when the child starts. -/
def startTrace (v : String) : List Effect :=
  [.log "Starting bedrock_server...\n", .command "./bedrock_server", .stdinPipe, .spawn,
   .log "Started bedrock_server\n", .started v]

/-- The stages of `update` up to the creation of the alias, one per effect. -/
def updateMarks (v : String) : List Phase :=
  [.provisioned v, .provisioned v, .provisioned v, .provisioned v] ++
    List.replicate 13 .shutdown ++
    [.aliasRemoved, .aliasRemoved, .aliasCreated v]

/-! ## Scenarios -/

/-- An environment in which every external step succeeds; the package holds
the server binary and a default `server.properties`. -/
def okEnv : Env :=
  { archive := [("bedrock_server", .node (.file "elf")),
      ("server.properties", .node (.file "motd=default"))]
    createOk := true
    downloadOk := true
    unzipOk := true
    pipeOk := true
    startOk := true
    waitOk := true }

/-- The world of the update scenario: version 1.10.0.7 installed and running,
its `server.properties` linked into `/data`, version 1.10.0.8 on the download
page. -/
def updateWorld : World :=
  { server := some ⟨"./bedrock_server", "bedrock-server"⟩
    serverStdin := some ⟨false⟩
    updating := false
    fs :=
      { data := some [("server.properties", .file "motd=mine")]
        aliasTarget := some "1.10.0.7"
        installs := [("1.10.0.7", [("version", .node (.file "1.10.0.7")),
          ("bedrock_server", .node (.file "elf")),
          ("server.properties", .link "server.properties")])] }
    net := [.page (some "1.10.0.8"), .page (some "1.10.0.8")]
    trace := []
    seen := [] }

/-- The update scenario with the download page unreachable. -/
def offlineWorld : World := { updateWorld with net := [.getError] }

/-- A freshly staged install next to existing persistent data: the alias points
at the directory of 1.10.0.8, which holds the package's own
`server.properties`, and `/data/server.properties` is the operator's copy. -/
def stagedWorld : World :=
  { server := none
    serverStdin := none
    updating := true
    fs :=
      { data := some [("server.properties", .file "motd=mine")]
        aliasTarget := some "1.10.0.8"
        installs := [("1.10.0.8", [("version", .node (.file "1.10.0.8")),
          ("bedrock_server", .node (.file "elf")),
          ("server.properties", .node (.file "motd=default"))])] }
    net := []
    trace := []
    seen := [] }

/-- No install on disk; the download page offers 1.10.0.8. -/
def freshWorld : World :=
  { server := none
    serverStdin := none
    updating := false
    fs := { data := some [], aliasTarget := none, installs := [] }
    net := [.page (some "1.10.0.8")]
    trace := []
    seen := [] }

/-- Version 1.10.0.8 installed, no server running yet. -/
def installedWorld : World :=
  { server := none
    serverStdin := none
    updating := false
    fs :=
      { data := some []
        aliasTarget := some "1.10.0.8"
        installs := [("1.10.0.8", [("version", .node (.file "1.10.0.8")),
          ("bedrock_server", .node (.file "elf"))])] }
    net := []
    trace := []
    seen := [] }

/-! ## Tables -/

theorem Table.get_erase {α : Type} (t : Table α) (k k1 : String) :
    Table.get (Table.erase t k) k1 = if k = k1 then none else Table.get t k1 := by
  induction t with
  | nil => simp [Table.erase, Table.get]
  | cons e t ih =>
    obtain ⟨a, v⟩ := e
    by_cases hak : a = k <;> by_cases hk1 : k = k1 <;>
      simp_all [Table.erase, Table.get]

theorem Table.get_put {α : Type} (t : Table α) (k k1 : String) (v : α) :
    Table.get (Table.put t k v) k1 = if k = k1 then some v else Table.get t k1 := by
  by_cases h : k = k1
  · simp [Table.put, Table.get, h]
  · simp [Table.put, Table.get, h, Table.get_erase]

/-! ## Steps that only add to the trace -/

@[simp] theorem World.emit_server (w : World) (e : Effect) : (w.emit e).server = w.server := rfl

@[simp] theorem World.emit_serverStdin (w : World) (e : Effect) :
    (w.emit e).serverStdin = w.serverStdin := rfl

@[simp] theorem World.emit_updating (w : World) (e : Effect) :
    (w.emit e).updating = w.updating := rfl

@[simp] theorem World.emit_fs (w : World) (e : Effect) : (w.emit e).fs = w.fs := rfl

@[simp] theorem World.emit_net (w : World) (e : Effect) : (w.emit e).net = w.net := rfl

@[simp] theorem World.emit_trace (w : World) (e : Effect) :
    (w.emit e).trace = w.trace ++ [e] := rfl

@[simp] theorem World.emit_seen (w : World) (e : Effect) :
    (w.emit e).seen = w.seen ++ [⟨w.server.isSome, w.updating⟩] := rfl

/-! ## File system calls of `symlink` -/

theorem FS.copy_data (fs fs1 : FS) (src : Path) (name : String)
    (h : fs.copy src (.data name) = some fs1) :
    fs1.aliasTarget = fs.aliasTarget ∧ fs1.installs = fs.installs ∧
      ∃ t n, fs.data = some t ∧ fs.resolve src = some n ∧ fs1.data = some (t.put name n) := by
  simp only [FS.copy] at h
  cases hn : fs.resolve src with
  | none => simp [hn] at h
  | some n =>
    cases ht : fs.data with
    | none => simp [hn, ht] at h
    | some t =>
      simp only [hn, ht, Option.some.injEq] at h
      subst h
      exact ⟨rfl, rfl, t, n, rfl, rfl, rfl⟩

theorem FS.remove_app (fs : FS) (name : String) :
    ((fs.remove (.app name)).getD fs).aliasTarget = fs.aliasTarget ∧
      ((fs.remove (.app name)).getD fs).data = fs.data := by
  simp only [FS.remove]
  repeat' split
  all_goals simp

theorem FS.symlink_app (fs : FS) (d name : String) :
    ((fs.symlink (.data d) (.app name)).getD fs).aliasTarget = fs.aliasTarget ∧
      ((fs.symlink (.data d) (.app name)).getD fs).data = fs.data := by
  simp only [FS.symlink]
  repeat' split
  all_goals simp

theorem relink_fs (d name : String) (w : World) :
    (relink (.data d) (.app name) w).fs.aliasTarget = w.fs.aliasTarget ∧
      (relink (.data d) (.app name) w).fs.data = w.fs.data := by
  simp only [relink, World.emit_fs]
  have h1 := FS.remove_app w.fs name
  have h2 := FS.symlink_app ((w.fs.remove (.app name)).getD w.fs) d name
  exact ⟨h2.1.trans h1.1, h2.2.trans h1.2⟩

theorem FS.stat_data_put (fs : FS) (t : Table Node) (name : String) (n : Node)
    (h : fs.data = some (t.put name n)) : fs.stat (.data name) = .ok := by
  simp [FS.stat, FS.resolve, h, Table.get_put]

/-- With the persistent copy present, `symlink` changes nothing on disk. -/
theorem symlink_fs_of_data (name : String) (w : World) (h : w.fs.stat (.data name) = .ok) :
    (symlink name w).fs = w.fs := by
  simp only [symlink, World.emit_fs, h]
  repeat' split
  all_goals simp_all

theorem StatResult.ne_notExist (r : StatResult) : r ≠ .notExist ↔ r = .ok := by
  cases r <;> simp

theorem FS.copy_some (fs : FS) (src : Path) (name : String)
    (h1 : fs.stat .dataDir = .ok) (h2 : fs.stat src = .ok) :
    ∃ fs1, fs.copy src (.data name) = some fs1 := by
  simp only [FS.copy]
  cases hd : fs.data with
  | none => simp [FS.stat, FS.resolve, hd] at h1
  | some t =>
    cases hr : fs.resolve src with
    | none => simp [FS.stat, hr] at h2
    | some n => exact ⟨_, rfl⟩

/-- On a settled file system `symlink` only looks: the disk is unchanged and
every call it makes is a stat. -/
theorem symlink_of_settled (name : String) (w : World) (h : Settled name w.fs) :
    (symlink name w).fs = w.fs ∧
      ∃ es, (symlink name w).trace = w.trace ++ es ∧ ∀ e ∈ es, ∃ p, e = Effect.stat p := by
  simp only [symlink, World.emit_fs]
  by_cases h1 : w.fs.stat .dataDir = .notExist
  · simp only [h1, if_true]
    exact ⟨rfl, [.stat .dataDir], rfl, by simp⟩
  by_cases h2 : w.fs.stat (.app name) = .notExist
  · simp only [h1, h2, if_true, if_false]
    exact ⟨rfl, [.stat .dataDir, .stat (.app name)], by simp, by simp⟩
  have h3 : w.fs.stat (.data name) = .ok := by
    rcases h with h | h | h
    · exact absurd h h1
    · exact absurd h h2
    · exact h
  simp only [h1, h2, h3, if_false]
  exact ⟨rfl, [.stat .dataDir, .stat (.app name), .stat (.data name)], by simp, by simp⟩

/-- After `symlink` the file system is settled for that name. -/
theorem symlink_settles (name : String) (w : World) : Settled name (symlink name w).fs := by
  simp only [symlink, World.emit_fs]
  by_cases h1 : w.fs.stat .dataDir = .notExist
  · simp only [h1, if_true]
    exact Or.inl h1
  by_cases h2 : w.fs.stat (.app name) = .notExist
  · simp only [h1, h2, if_true, if_false]
    exact Or.inr (Or.inl h2)
  by_cases h3 : w.fs.stat (.data name) = .notExist
  · have h4 : w.fs.stat (.app name) = .ok := (StatResult.ne_notExist _).1 h2
    obtain ⟨fs1, hc⟩ := FS.copy_some w.fs (.app name) name ((StatResult.ne_notExist _).1 h1) h4
    simp only [h1, h2, h3, h4, hc, if_true, if_false]
    obtain ⟨_, _, t, n, _, _, hd⟩ := FS.copy_data w.fs fs1 _ _ hc
    have hr := (relink_fs name name
      { server := w.server, serverStdin := w.serverStdin, updating := w.updating, fs := fs1,
        net := w.net, trace := w.trace ++ [.stat .dataDir] ++ [.stat (.app name)] ++
          [.stat (.data name)] ++ [.stat (.app name)] ++ [.copy (.app name) (.data name)],
        seen := w.seen ++ [⟨w.server.isSome, w.updating⟩] ++ [⟨w.server.isSome, w.updating⟩] ++
          [⟨w.server.isSome, w.updating⟩] ++ [⟨w.server.isSome, w.updating⟩] ++
          [⟨w.server.isSome, w.updating⟩] }).2
    exact Or.inr (Or.inr (FS.stat_data_put _ t name n (hr.trans hd)))
  · simp only [h1, h2, h3, if_false]
    exact Or.inr (Or.inr ((StatResult.ne_notExist _).1 h3))

/-- C9: for every state and every data name, a second run of `symlink` right
after the first leaves the file system exactly as the first run left it, and
the second run only stats: it copies nothing, removes nothing and creates no
link. -/
theorem symlink_idempotent (name : String) (w : World) :
    (symlink name (symlink name w)).fs = (symlink name w).fs ∧
      ∃ es, (symlink name (symlink name w)).trace = (symlink name w).trace ++ es ∧
        ∀ e ∈ es, ∃ p, e = Effect.stat p :=
  symlink_of_settled name (symlink name w) (symlink_settles name w)

/-! ## Update detection -/

theorem checkForUpdates_page (w : World) (v1 v2 : String) (rest : List Fetch)
    (hv : w.fs.readFile (.app "version") = some v1) (hn : w.net = .page (some v2) :: rest) :
    ∃ w1, checkForUpdates w = .ok (decide (v1 ≠ v2), some v2, false) w1 ∧
      w1.server = w.server ∧ w1.serverStdin = w.serverStdin ∧ w1.updating = w.updating ∧
      w1.fs = w.fs ∧ w1.net = rest ∧
      w1.trace = w.trace ++ [.readFile (.app "version"), .log ("Current: " ++ v1 ++ "\n"),
        .log "Gathering latest minecraft version\n", .httpGet,
        .log ("Available: " ++ v2 ++ "\n")] := by
  obtain ⟨sv, si, u, fs, net, tr, sn⟩ := w
  simp only at hv hn
  subst hn
  simp only [checkForUpdates, World.emit, hv, httpGet]
  exact ⟨_, rfl, rfl, rfl, rfl, rfl, rfl, by simp⟩

theorem checkForUpdates_failed (w : World) (v1 : String)
    (hv : w.fs.readFile (.app "version") = some v1)
    (hn : ∀ v rest, w.net ≠ .page v :: rest) :
    ∃ w1, checkForUpdates w = .ok (false, none, true) w1 ∧
      w1.server = w.server ∧ w1.serverStdin = w.serverStdin ∧ w1.updating = w.updating ∧
      w1.fs = w.fs ∧
      w1.trace = w.trace ++ [.readFile (.app "version"), .log ("Current: " ++ v1 ++ "\n"),
        .log "Gathering latest minecraft version\n", .httpGet] := by
  obtain ⟨sv, si, u, fs, net, tr, sn⟩ := w
  simp only at hv hn
  cases net with
  | nil =>
    simp only [checkForUpdates, World.emit, hv, httpGet]
    exact ⟨_, rfl, rfl, rfl, rfl, rfl, by simp⟩
  | cons f rest =>
    cases f with
    | getError =>
      simp only [checkForUpdates, World.emit, hv, httpGet]
      exact ⟨_, rfl, rfl, rfl, rfl, rfl, by simp⟩
    | readError =>
      simp only [checkForUpdates, World.emit, hv, httpGet]
      exact ⟨_, rfl, rfl, rfl, rfl, rfl, by simp⟩
    | page v => exact absurd rfl (hn v rest)

/-- C5: with installed version `v1` in the version file and `v2` on the download
page, `checkForUpdates` returns without error, reports an update exactly when
the two strings differ (so none when both are the same, and one for any
mismatch, whichever is greater), and returns `v2` as the target. -/
theorem checkForUpdates_iff_differ (w : World) (v1 v2 : String) (rest : List Fetch)
    (hv : w.fs.readFile (.app "version") = some v1) (hn : w.net = .page (some v2) :: rest) :
    ∃ b w1, checkForUpdates w = .ok (b, some v2, false) w1 ∧ (b = true ↔ v1 ≠ v2) := by
  obtain ⟨w1, h, _⟩ := checkForUpdates_page w v1 v2 rest hv hn
  exact ⟨decide (v1 ≠ v2), w1, h, by simp⟩

theorem update_failed (env : Env) (w : World) (v1 : String)
    (hv : w.fs.readFile (.app "version") = some v1)
    (hn : ∀ v rest, w.net ≠ .page v :: rest) :
    ∃ w1, update env w = .ok none w1 ∧ w1.server = w.server ∧
      w1.serverStdin = w.serverStdin ∧ w1.updating = w.updating ∧ w1.fs = w.fs ∧
      w1.trace = w.trace ++ [.log "Checking for Minecraft Bedrock Server updates...\n",
        .readFile (.app "version"), .log ("Current: " ++ v1 ++ "\n"),
        .log "Gathering latest minecraft version\n", .httpGet,
        .log "An error occurred while checking for the latest version\n"] := by
  obtain ⟨w1, h, hs, hp, hu, hfs, ht⟩ :=
    checkForUpdates_failed (w.emit (.log "Checking for Minecraft Bedrock Server updates...\n"))
      v1 hv hn
  refine ⟨w1.emit (.log "An error occurred while checking for the latest version\n"),
    ?_, hs, hp, hu, hfs, ?_⟩
  · simp [update, h]
  · simp [ht]

theorem not_page_of_failed (w : World) (h : (httpGet w).1.failed = true) :
    ∀ v rest, w.net ≠ .page v :: rest := by
  intro v rest hnet
  simp [httpGet, hnet, Fetch.failed] at h

/-- C7: when the version file is readable and the fetch of the download page
fails, `update` returns (nil) without aborting; the only calls it makes, log
lines apart, are the read of the version file and the request; the process
handle, the input stream, `updating` and the whole file system are unchanged;
and the poller iteration around it spawns no process and leaves the handle as
it was. -/
theorem update_fetch_failure (env : Env) (w : World) (v1 : String)
    (hv : w.fs.readFile (.app "version") = some v1)
    (hn : (httpGet w).1.failed = true) :
    (∃ w1 es, update env w = .ok none w1 ∧ w1.server = w.server ∧
      w1.serverStdin = w.serverStdin ∧ w1.updating = w.updating ∧ w1.fs = w.fs ∧
      w1.trace = w.trace ++ es ∧ effects es = [.readFile (.app "version"), .httpGet]) ∧
    (∃ es, (pollerStep env w).world.trace = w.trace ++ es ∧ Effect.spawn ∉ es ∧
      (∀ c, Effect.command c ∉ es) ∧ (pollerStep env w).world.server = w.server ∧
      (pollerStep env w).world.fs = w.fs) := by
  have hn := not_page_of_failed w hn
  constructor
  · obtain ⟨w1, h, hs, hp, hu, hfs, ht⟩ := update_failed env w v1 hv hn
    exact ⟨w1, _, h, hs, hp, hu, hfs, ht, by simp [effects, Effect.isLog]⟩
  · obtain ⟨w1, h, hs, hp, hu, hfs, ht⟩ :=
      update_failed env (w.emit (.sleep (1000 * 3600 * 6))) v1 hv hn
    simp only [World.emit_server, World.emit_updating, World.emit_fs, World.emit_trace,
      List.append_assoc, List.singleton_append] at hs hu hfs ht
    cases hupd : w.updating with
    | false =>
      have hr : pollerStep env w = .ok () w1 := by
        simp [pollerStep, h, hu, hupd]
      rw [hr]
      exact ⟨_, ht, by simp, by simp, hs, hfs⟩
    | true =>
      have hr : pollerStep env w = .abort (w1.emit .runtimePanic) := by
        simp [pollerStep, h, hu, hupd, goPanic]
      rw [hr]
      have ht2 : (w1.emit .runtimePanic).trace = w.trace ++
          ([Effect.sleep (1000 * 3600 * 6),
            .log "Checking for Minecraft Bedrock Server updates...\n",
            .readFile (.app "version"), .log ("Current: " ++ v1 ++ "\n"),
            .log "Gathering latest minecraft version\n", .httpGet,
            .log "An error occurred while checking for the latest version\n"] ++
            [.runtimePanic]) := by
        simp [ht]
      exact ⟨_, ht2, by simp, by simp, hs, hfs⟩

/-! ## What the waiter can observe during a poller iteration -/

theorem Inv.emit {n : Nat} {w : World} (h : Inv n w) (e : Effect) : Inv n (w.emit e) := by
  obtain ⟨h1, h2, h3⟩ := h
  refine ⟨?_, ?_, h3⟩
  · simp only [World.emit_seen, List.length_append, List.length_singleton]
    omega
  · intro s hs
    simp only [World.emit_seen, List.drop_append_of_le_length h1, List.mem_append,
      List.mem_singleton] at hs
    rcases hs with hs | hs
    · exact h2 s hs
    · subst hs
      exact h3

theorem Inv.of_ok {α : Type} {n : Nat} {r : Result α} {a : α} {w1 : World}
    (h : Inv n r.world) (heq : r = .ok a w1) : Inv n w1 := by
  subst heq
  exact h

theorem Inv.of_abort {α : Type} {n : Nat} {r : Result α} {w1 : World}
    (h : Inv n r.world) (heq : r = .abort w1) : Inv n w1 := by
  subst heq
  exact h

theorem Inv.setStdin {n : Nat} {w : World} (h : Inv n w) (q : Option Pipe) :
    Inv n { w with serverStdin := q } := h

theorem Inv.setFS {n : Nat} {w : World} (h : Inv n w) (fs : FS) :
    Inv n { w with fs := fs } := h

theorem Inv.setNet {n : Nat} {w : World} (h : Inv n w) (net : List Fetch) :
    Inv n { w with net := net } := h

theorem Inv.clearServer {n : Nat} {w : World} (h : Inv n w) (hu : w.updating = true) :
    Inv n { w with server := none } := by
  obtain ⟨a, b, _⟩ := h
  exact ⟨a, b, by simp [hu]⟩

theorem Inv.setServer {n : Nat} {w : World} (h : Inv n w) (c : Cmd) :
    Inv n { w with server := some c } := by
  obtain ⟨a, b, _⟩ := h
  exact ⟨a, b, by simp⟩

theorem Inv.setUpdating {n : Nat} {w : World} (h : Inv n w) :
    Inv n { w with updating := true } := by
  obtain ⟨a, b, _⟩ := h
  exact ⟨a, b, by simp⟩

theorem Inv.clearUpdating {n : Nat} {w : World} (h : Inv n w) (hs : w.server.isSome = true) :
    Inv n { w with updating := false } := by
  obtain ⟨a, b, _⟩ := h
  exact ⟨a, b, by simp [hs]⟩

theorem inv_write {n : Nat} (msg : String) {w : World} (h : Inv n w) :
    Inv n (write msg w).world := by
  unfold write
  cases w.serverStdin <;> exact h.emit _

theorem write_updating (msg : String) (w : World) :
    (write msg w).world.updating = w.updating := by
  unfold write
  cases w.serverStdin <;> rfl

theorem inv_countdown {n : Nat} (k : Nat) {w : World} (h : Inv n w) :
    Inv n (countdown k w).world ∧ (countdown k w).world.updating = w.updating := by
  induction k generalizing w with
  | zero => exact ⟨h, rfl⟩
  | succ i ih =>
    unfold countdown
    simp only []
    split
    · next w1 heq =>
      have hu := write_updating ("say shutting down in " ++ toString ((i + 1) * 5) ++ " seconds...\n")
        (w.emit (.log
        ("say shutting down in " ++ toString ((i + 1) * 5) ++ " seconds...\n" ++ "\n")))
      rw [heq] at hu
      exact ⟨Inv.of_abort (inv_write _ (h.emit _)) heq, hu⟩
    · next _ w1 heq =>
      have hu := write_updating ("say shutting down in " ++ toString ((i + 1) * 5) ++ " seconds...\n")
        (w.emit (.log
        ("say shutting down in " ++ toString ((i + 1) * 5) ++ " seconds...\n" ++ "\n")))
      rw [heq] at hu
      have h1 : Inv n w1 := Inv.of_ok (inv_write _ (h.emit _)) heq
      obtain ⟨a, b⟩ := ih (w := sleepSeconds 5 w1) (h1.emit _)
      exact ⟨a, b.trans hu⟩

theorem inv_terminate {n : Nat} (env : Env) {w : World} (h : Inv n w) (hu : w.updating = true) :
    Inv n (terminate env w).world := by
  unfold terminate
  simp only []
  split
  · next w1 heq => exact Inv.of_abort (inv_write _ (h.emit _)) heq
  · next _ w1 heq =>
    have h1 : Inv n w1 := Inv.of_ok (inv_write _ (h.emit _)) heq
    have hu1 := write_updating "say shutting down NOW...\n"
      (w.emit (.log ("say shutting down NOW...\n" ++ "\n")))
    rw [heq] at hu1
    split
    · next w2 heq2 => exact Inv.of_abort (inv_write _ (h1.emit _)) heq2
    · next _ w2 heq2 =>
      have h2 : Inv n w2 := Inv.of_ok (inv_write _ (h1.emit (.sleep (1000 * 5)))) heq2
      have hu2 := write_updating "stop\n" (sleepSeconds 5 w1)
      rw [heq2] at hu2
      have hu3 : w2.updating = true := hu2.trans (hu1.trans hu)
      split
      · exact h2.emit _
      · split
        · exact (h2.emit _).emit _
        · refine Inv.emit (Inv.setStdin (Inv.emit (Inv.clearServer ?_ ?_) _) _) _
          · exact (((h2.emit _).setStdin _).emit _).emit _ |>.emit _
          · exact hu3

theorem inv_stop {n : Nat} (env : Env) {w : World} (h : Inv n w) (hu : w.updating = true) :
    Inv n (stop env w).world := by
  unfold stop
  obtain ⟨a, b⟩ := inv_countdown 6 h
  split
  · next w1 heq => exact Inv.of_abort a heq
  · next _ w1 heq =>
    rw [heq] at b
    exact inv_terminate env (Inv.of_ok a heq) (b.trans hu)

theorem inv_httpGet {n : Nat} {w : World} (h : Inv n w) : Inv n (httpGet w).2 := by
  unfold httpGet
  split
  · exact h.emit _
  · exact (h.setNet _).emit _

theorem inv_checkForUpdates {n : Nat} {w : World} (h : Inv n w) :
    Inv n (checkForUpdates w).world := by
  unfold checkForUpdates
  simp only []
  split
  · exact (h.emit _).emit _
  · next v hv =>
    have h1 := inv_httpGet (((h.emit (.readFile (.app "version"))).emit
      (.log ("Current: " ++ v ++ "\n"))).emit (.log "Gathering latest minecraft version\n"))
    split
    · next heq =>
      rw [heq] at h1
      exact h1
    · next heq =>
      rw [heq] at h1
      exact h1
    · next heq =>
      rw [heq] at h1
      exact h1.emit _
    · next heq =>
      rw [heq] at h1
      exact h1.emit _

theorem inv_downloadBedrockServer {n : Nat} (env : Env) {w : World} (h : Inv n w) :
    Inv n (downloadBedrockServer env w).world := by
  unfold downloadBedrockServer
  simp only []
  have h1 := inv_httpGet (h.emit (.log "Gathering latest minecraft version\n"))
  split
  · next heq =>
    rw [heq] at h1
    exact h1
  · next heq =>
    rw [heq] at h1
    exact h1
  · next heq =>
    rw [heq] at h1
    exact h1.emit _
  · next heq =>
    rw [heq] at h1
    split
    · exact (h1.emit _).emit _
    · split
      · exact (((h1.emit _).emit _).emit _).emit _
      · split
        · exact (((((h1.emit _).emit _).emit _).emit _).emit _).emit _
        · exact ((((((((h1.emit _).emit _).emit _).emit _).emit _).setFS _).emit _).setFS _).emit _
            |>.emit _

theorem inv_relink {n : Nat} (data app : Path) {w : World} (h : Inv n w) :
    Inv n (relink data app w) :=
  (((h.setFS _).emit _).setFS _).emit _

theorem inv_symlink {n : Nat} (name : String) {w : World} (h : Inv n w) :
    Inv n (symlink name w) := by
  unfold symlink
  simp only []
  split
  · exact h.emit _
  · split
    · exact (h.emit _).emit _
    · split
      · split
        · split
          · exact inv_relink _ _ ((((((h.emit _).emit _).emit _).emit _).emit _).setFS _)
          · exact ((((h.emit _).emit _).emit _).emit _).emit _
        · exact (((h.emit _).emit _).emit _).emit _
      · exact ((h.emit _).emit _).emit _

theorem inv_initializeDirectory {n : Nat} (version : String) {w : World} (h : Inv n w) :
    Inv n (initializeDirectory version w).world := by
  unfold initializeDirectory
  simp only []
  split
  · exact (h.emit _).emit _
  · exact inv_symlink _ (inv_symlink _ (inv_symlink _ (inv_symlink _
      (((h.emit _).setFS _).emit _))))

theorem inv_removeAlias {n : Nat} {w : World} (h : Inv n w) : Inv n (removeAlias w) := by
  unfold removeAlias
  simp only []
  split
  · exact ((h.emit _).setFS _).emit _
  · exact h.emit _

theorem inv_stopForUpdate {n : Nat} (env : Env) {w : World} (h : Inv n w) :
    Inv n (stopForUpdate env w).world := by
  unfold stopForUpdate
  split
  · exact h
  · exact inv_stop env ((h.setUpdating.emit _).emit _) rfl

theorem inv_update {n : Nat} (env : Env) {w : World} (h : Inv n w) :
    Inv n (update env w).world := by
  unfold update
  simp only []
  have h1 := inv_checkForUpdates (h.emit (.log "Checking for Minecraft Bedrock Server updates...\n"))
  split
  · next heq => exact Inv.of_abort h1 heq
  · next b v err w1 heq =>
    have h2 : Inv n w1 := Inv.of_ok h1 heq
    have h3 : Inv n (if err = true then
        w1.emit (.log "An error occurred while checking for the latest version\n") else w1) := by
      split
      · exact h2.emit _
      · exact h2
    split
    · exact h3
    · have h4 := inv_downloadBedrockServer env
        (h3.emit (.log "A newer version is available, downloading...\n"))
      split
      · next heq2 => exact Inv.of_abort h4 heq2
      · next heq2 => exact (Inv.of_ok h4 heq2).emit _
      · next v2 w2 heq2 =>
        have h5 := inv_stopForUpdate env (Inv.of_ok h4 heq2)
        split
        · next heq3 => exact Inv.of_abort h5 heq3
        · next heq3 =>
          have h6 := inv_initializeDirectory v2 (inv_removeAlias (Inv.of_ok h5 heq3))
          split
          · next heq4 => exact Inv.of_abort h6 heq4
          · next heq4 => exact Inv.of_ok h6 heq4

theorem inv_start {n : Nat} (env : Env) (version : String) {w : World} (h : Inv n w) :
    Inv n (start env version w).world ∧
      ∀ w1, start env version w = .ok () w1 → w1.server.isSome = true := by
  unfold start
  simp only []
  split
  · exact ⟨((((h.emit _).setServer _).emit _).setStdin _).emit _ |>.emit _,
      fun w1 hw => by simp [fatal] at hw⟩
  · split
    · exact ⟨(((((h.emit _).setServer _).emit _).setStdin _).emit _).emit _ |>.emit _,
        fun w1 hw => by simp [fatal] at hw⟩
    · refine ⟨((((((h.emit _).setServer _).emit _).setStdin _).emit _).emit _).emit _ |>.emit _,
        fun w1 hw => ?_⟩
      simp only [Result.ok.injEq, true_and] at hw
      subst hw
      rfl

theorem inv_pollerStep {n : Nat} (env : Env) {w : World} (h : Inv n w) :
    Inv n (pollerStep env w).world := by
  unfold pollerStep
  simp only []
  have h1 := inv_update env (h.emit (.sleep (1000 * 3600 * 6)))
  split
  · next heq => exact Inv.of_abort h1 heq
  · next v w1 heq =>
    have h2 : Inv n w1 := Inv.of_ok h1 heq
    split
    · split
      · exact h2.emit _
      · next ver =>
        obtain ⟨h3, h4⟩ := inv_start env ver h2
        split
        · next heq2 => exact Inv.of_abort h3 heq2
        · next w2 heq2 =>
          exact (Inv.clearUpdating (Inv.of_ok h3 heq2) (h4 w2 heq2)).emit _
    · exact h2

/-! ## Shutdown -/

theorem effects_append (s t : List Effect) : effects (s ++ t) = effects s ++ effects t := by
  simp [effects]

theorem countdown_running (n : Nat) (w : World) (p : Pipe) (hp : w.serverStdin = some p) :
    ∃ w1 es, countdown n w = .ok () w1 ∧ w1.server = w.server ∧
      w1.serverStdin = w.serverStdin ∧ w1.updating = w.updating ∧ w1.fs = w.fs ∧
      w1.net = w.net ∧ w1.trace = w.trace ++ es ∧
      effects es = ((List.range n).reverse.map fun i =>
          [Effect.write ("say shutting down in " ++ toString ((i + 1) * 5) ++ " seconds...\n"),
           Effect.sleep 5000]).flatten := by
  induction n generalizing w with
  | zero => exact ⟨w, [], rfl, rfl, rfl, rfl, rfl, rfl, by simp, by simp [effects]⟩
  | succ i ih =>
    obtain ⟨w1, es, h1, hs, hin, hu, hfs, hnet, ht, he⟩ :=
      ih (sleepSeconds 5 ((w.emit (.log
        ("say shutting down in " ++ toString ((i + 1) * 5) ++ " seconds...\n" ++ "\n"))).emit
        (.write ("say shutting down in " ++ toString ((i + 1) * 5) ++ " seconds...\n")))) hp
    refine ⟨w1, [.log ("say shutting down in " ++ toString ((i + 1) * 5) ++ " seconds...\n" ++ "\n"),
      .write ("say shutting down in " ++ toString ((i + 1) * 5) ++ " seconds...\n"),
      .sleep 5000] ++ es, ?_, hs, hin, hu, hfs, hnet, ?_, ?_⟩
    · unfold countdown
      simp only [write, World.emit_serverStdin, hp]
      exact h1
    · rw [ht]
      simp [sleepSeconds]
    · rw [effects_append, he]
      simp [List.range_succ, effects, Effect.isLog]

theorem terminate_running (env : Env) (w : World) (c : Cmd) (p : Pipe)
    (hs : w.server = some c) (hp : w.serverStdin = some p) (hw : env.waitOk = true) :
    ∃ w1, terminate env w = .ok () w1 ∧ w1.server = none ∧ w1.serverStdin = none ∧
      w1.updating = w.updating ∧ w1.fs = w.fs ∧ w1.net = w.net ∧
      w1.trace = w.trace ++ immediateTrace := by
  obtain ⟨sv, si, u, fs, net, tr, sn⟩ := w
  simp only at hs hp
  subst hs hp
  simp only [terminate, write, World.emit, sleepSeconds, hw, Bool.not_true, Bool.false_eq_true,
    if_false]
  refine ⟨_, rfl, ?_⟩
  simp [immediateTrace]

theorem stop_running (env : Env) (w : World) (c : Cmd) (p : Pipe)
    (hs : w.server = some c) (hp : w.serverStdin = some p) (hw : env.waitOk = true) :
    ∃ w1 es, stop env w = .ok () w1 ∧ w1.server = none ∧ w1.serverStdin = none ∧
      w1.updating = w.updating ∧ w1.fs = w.fs ∧ w1.net = w.net ∧
      w1.trace = w.trace ++ es ∧ effects es = gracefulEffects := by
  obtain ⟨w1, es, h1, hs1, hp1, hu1, hfs1, hn1, ht1, he1⟩ := countdown_running 6 w p hp
  obtain ⟨w2, h2, hs2, hp2, hu2, hfs2, hn2, ht2⟩ :=
    terminate_running env w1 c p (hs1.trans hs) (hp1.trans hp) hw
  refine ⟨w2, es ++ immediateTrace, ?_, hs2, hp2, hu2.trans hu1, hfs2.trans hfs1,
    hn2.trans hn1, ?_, ?_⟩
  · simp only [stop, h1, h2]
  · rw [ht2, ht1, List.append_assoc]
  · rw [effects_append, he1]
    rfl

/-- C1: with a server running (process handle and input stream present) and the
wait for the child succeeding, `stop` returns, and the effects it adds to the
trace (log lines apart) are exactly: the six notices for 30, 25, 20, 15, 10
and 5 seconds, each followed by a five-second sleep, the notice "NOW", a
five-second sleep, the command `stop`, the wait for process exit, the close of
the input stream, the "stopped" notification and the two assignments of nil;
in the resulting state `server` and `serverStdin` are absent. -/
theorem stop_graceful_trace (env : Env) (w : World) (c : Cmd) (p : Pipe)
    (hs : w.server = some c) (hp : w.serverStdin = some p) (hw : env.waitOk = true) :
    ∃ w1 es, stop env w = .ok () w1 ∧ w1.trace = w.trace ++ es ∧
      effects es =
        [.write "say shutting down in 30 seconds...\n", .sleep 5000,
         .write "say shutting down in 25 seconds...\n", .sleep 5000,
         .write "say shutting down in 20 seconds...\n", .sleep 5000,
         .write "say shutting down in 15 seconds...\n", .sleep 5000,
         .write "say shutting down in 10 seconds...\n", .sleep 5000,
         .write "say shutting down in 5 seconds...\n", .sleep 5000,
         .write "say shutting down NOW...\n", .sleep 5000, .write "stop\n", .wait, .close,
         .stopped, .setServerNil, .setStdinNil] ∧
      w1.server = none ∧ w1.serverStdin = none := by
  obtain ⟨w1, es, h, hs1, hp1, _, _, _, ht, he⟩ := stop_running env w c p hs hp hw
  exact ⟨w1, es, h, ht, he, hs1, hp1⟩

/-- C2: with a server running and the wait for the child succeeding,
`terminate` returns, and the effects it adds to the trace (log lines apart) are
exactly: the notice "NOW", a five-second sleep, the command `stop`, the wait
for process exit, the close of the input stream, the "stopped" notification
and the two assignments of nil; no countdown notice is written and `server`
and `serverStdin` end absent. -/
theorem terminate_immediate_trace (env : Env) (w : World) (c : Cmd) (p : Pipe)
    (hs : w.server = some c) (hp : w.serverStdin = some p) (hw : env.waitOk = true) :
    ∃ w1 es, terminate env w = .ok () w1 ∧ w1.trace = w.trace ++ es ∧
      effects es =
        [.write "say shutting down NOW...\n", .sleep 5000, .write "stop\n", .wait, .close,
         .stopped, .setServerNil, .setStdinNil] ∧
      w1.server = none ∧ w1.serverStdin = none := by
  obtain ⟨w1, h, hs1, hp1, _, _, _, ht⟩ := terminate_running env w c p hs hp hw
  exact ⟨w1, immediateTrace, h, ht, by simp [effects, Effect.isLog, immediateTrace], hs1, hp1⟩

/-! ## The update path -/

theorem relink_server (data app : Path) (w : World) :
    (relink data app w).server = w.server := rfl

theorem relink_serverStdin (data app : Path) (w : World) :
    (relink data app w).serverStdin = w.serverStdin := rfl

theorem relink_updating (data app : Path) (w : World) :
    (relink data app w).updating = w.updating := rfl

theorem relink_net (data app : Path) (w : World) : (relink data app w).net = w.net := rfl

theorem relink_trace (data app : Path) (w : World) :
    (relink data app w).trace = w.trace ++ [.remove app, .symlink data app] := by
  simp [relink]

theorem relink_aliasTarget (d name : String) (w : World) :
    (relink (.data d) (.app name) w).fs.aliasTarget = w.fs.aliasTarget :=
  (relink_fs d name w).1

theorem symlink_adds (name : String) (w : World) :
    ∃ es, (symlink name w).trace = w.trace ++ es ∧ es ≠ [] ∧
      (∀ e ∈ es, e.isDataLinkOp = true) ∧ (symlink name w).server = w.server ∧
      (symlink name w).serverStdin = w.serverStdin ∧ (symlink name w).updating = w.updating ∧
      (symlink name w).net = w.net ∧ (symlink name w).fs.aliasTarget = w.fs.aliasTarget := by
  simp only [symlink, World.emit_fs]
  by_cases h1 : w.fs.stat .dataDir = .notExist
  · simp only [h1, if_true]
    exact ⟨[.stat .dataDir], rfl, by simp, by simp [Effect.isDataLinkOp], rfl, rfl, rfl, rfl, rfl⟩
  by_cases h2 : w.fs.stat (.app name) = .notExist
  · simp only [h1, h2, if_true, if_false]
    exact ⟨[.stat .dataDir, .stat (.app name)], by simp, by simp,
      by simp [Effect.isDataLinkOp], rfl, rfl, rfl, rfl, rfl⟩
  by_cases h3 : w.fs.stat (.data name) = .notExist
  · have h4 : w.fs.stat (.app name) = .ok := (StatResult.ne_notExist _).1 h2
    obtain ⟨fs1, hc⟩ := FS.copy_some w.fs (.app name) name ((StatResult.ne_notExist _).1 h1) h4
    simp only [h1, h2, h3, h4, hc, if_true, if_false]
    obtain ⟨ha, _, _⟩ := FS.copy_data w.fs fs1 _ _ hc
    refine ⟨[.stat .dataDir, .stat (.app name), .stat (.data name), .stat (.app name),
      .copy (.app name) (.data name), .remove (.app name), .symlink (.data name) (.app name)],
      ?_, by simp, by simp [Effect.isDataLinkOp], ?_, ?_, ?_, ?_, ?_⟩
    · simp [relink_trace]
    · simp [relink_server]
    · simp [relink_serverStdin]
    · simp [relink_updating]
    · simp [relink_net]
    · simp [relink_aliasTarget, ha]
  · simp only [h1, h2, h3, if_false]
    exact ⟨[.stat .dataDir, .stat (.app name), .stat (.data name)], by simp, by simp,
      by simp [Effect.isDataLinkOp], rfl, rfl, rfl, rfl, rfl⟩

theorem dataLinks_adds (w : World) :
    ∃ es, (dataLinks w).trace = w.trace ++ es ∧ es ≠ [] ∧
      (∀ e ∈ es, e.isDataLinkOp = true) ∧ (dataLinks w).server = w.server ∧
      (dataLinks w).serverStdin = w.serverStdin ∧ (dataLinks w).updating = w.updating ∧
      (dataLinks w).net = w.net ∧ (dataLinks w).fs.aliasTarget = w.fs.aliasTarget := by
  obtain ⟨e1, t1, n1, d1, s1, p1, u1, q1, a1⟩ := symlink_adds "worlds" w
  obtain ⟨e2, t2, _, d2, s2, p2, u2, q2, a2⟩ := symlink_adds "server.properties"
    (symlink "worlds" w)
  obtain ⟨e3, t3, _, d3, s3, p3, u3, q3, a3⟩ := symlink_adds "permissions.json"
    (symlink "server.properties" (symlink "worlds" w))
  obtain ⟨e4, t4, _, d4, s4, p4, u4, q4, a4⟩ := symlink_adds "whitelist.json"
    (symlink "permissions.json" (symlink "server.properties" (symlink "worlds" w)))
  refine ⟨e1 ++ (e2 ++ (e3 ++ e4)), ?_, ?_, ?_, ?_, ?_, ?_, ?_, ?_⟩
  · simp only [dataLinks, t4, t3, t2, t1, List.append_assoc]
  · simp [n1]
  · intro e he
    simp only [List.mem_append] at he
    rcases he with he | he | he | he
    · exact d1 e he
    · exact d2 e he
    · exact d3 e he
    · exact d4 e he
  · simp only [dataLinks, s4, s3, s2, s1]
  · simp only [dataLinks, p4, p3, p2, p1]
  · simp only [dataLinks, u4, u3, u2, u1]
  · simp only [dataLinks, q4, q3, q2, q1]
  · simp only [dataLinks, a4, a3, a2, a1]

theorem initializeDirectory_eq (version : String) (w : World) (fs1 : FS)
    (hl : w.fs.symlink (.install version) .stableAlias = some fs1) :
    initializeDirectory version w = .ok () (dataLinks
      (World.emit { w.emit (.symlink (.install version) .stableAlias) with fs := fs1 }
        (.chmod (.app "bedrock_server")))) := by
  simp only [initializeDirectory, World.emit_fs, hl, dataLinks]

theorem initializeDirectory_ok (version : String) (w : World) (h : w.fs.aliasTarget = none) :
    ∃ w1 es, initializeDirectory version w = .ok () w1 ∧ w1.server = w.server ∧
      w1.serverStdin = w.serverStdin ∧ w1.updating = w.updating ∧ w1.net = w.net ∧
      w1.fs.aliasTarget = some version ∧
      w1.trace = w.trace ++
        ([.symlink (.install version) .stableAlias, .chmod (.app "bedrock_server")] ++ es) ∧
      es ≠ [] ∧ ∀ e ∈ es, e.isDataLinkOp = true := by
  have hl : w.fs.symlink (.install version) .stableAlias =
      some { w.fs with aliasTarget := some version } := by
    simp [FS.symlink, h]
  obtain ⟨es, t, n, d, s, p, u, q, a⟩ := dataLinks_adds
    (World.emit { w.emit (.symlink (.install version) .stableAlias) with
      fs := { w.fs with aliasTarget := some version } } (.chmod (.app "bedrock_server")))
  refine ⟨_, es, initializeDirectory_eq version w _ hl, ?_, ?_, ?_, ?_, ?_, ?_, n, d⟩
  · rw [s]
    rfl
  · rw [p]
    rfl
  · rw [u]
    rfl
  · rw [q]
    rfl
  · rw [a]
    rfl
  · rw [t]
    simp

theorem downloadBedrockServer_ok (env : Env) (w : World) (v : String) (rest : List Fetch)
    (hn : w.net = .page (some v) :: rest) (hc : env.createOk = true)
    (hd : env.downloadOk = true) (hz : env.unzipOk = true) :
    ∃ w1, downloadBedrockServer env w = .ok (some v) w1 ∧ w1.server = w.server ∧
      w1.serverStdin = w.serverStdin ∧ w1.updating = w.updating ∧ w1.net = rest ∧
      w1.fs.aliasTarget = w.fs.aliasTarget ∧ w1.fs.data = w.fs.data ∧
      (∀ a, (w.fs.installs.get a).isSome = true → (w1.fs.installs.get a).isSome = true) ∧
      w1.fs.installs.get v = some (env.archive.put "version" (.node (.file v))) ∧
      w1.trace = w.trace ++ downloadTrace v := by
  obtain ⟨sv, si, u, fs, net, tr, sn⟩ := w
  simp only at hn
  subst hn
  simp only [downloadBedrockServer, httpGet, World.emit, hc, hd, hz, Bool.not_true,
    Bool.false_eq_true, if_false, FS.writeFile, Table.get_put, if_true, Option.getD_some]
  refine ⟨_, rfl, rfl, rfl, rfl, rfl, rfl, rfl, ?_, ?_, ?_⟩
  · intro a ha
    by_cases hva : v = a
    · simp [Table.get_put, hva]
    · simp [Table.get_put, hva, ha]
  · simp [Table.get_put]
  · simp [downloadTrace]

theorem FS.stat_alias_of_readFile (fs : FS) (name c : String)
    (h : fs.readFile (.app name) = some c) :
    ∃ a, fs.aliasTarget = some a ∧ (fs.installs.get a).isSome = true := by
  simp only [FS.readFile, FS.resolve, FS.active] at h
  cases ha : fs.aliasTarget with
  | none => simp [ha] at h
  | some a =>
    cases hi : fs.installs.get a with
    | none => simp [ha, hi] at h
    | some t => exact ⟨a, rfl, by simp [hi]⟩

theorem removeAlias_ok (w : World) (a : String) (ha : w.fs.aliasTarget = some a)
    (hi : (w.fs.installs.get a).isSome = true) :
    (removeAlias w).server = w.server ∧ (removeAlias w).serverStdin = w.serverStdin ∧
      (removeAlias w).updating = w.updating ∧ (removeAlias w).net = w.net ∧
      (removeAlias w).fs.aliasTarget = none ∧
      (removeAlias w).trace = w.trace ++ [.stat .stableAlias, .remove .stableAlias] := by
  obtain ⟨t, ht⟩ := Option.isSome_iff_exists.1 hi
  have hs : w.fs.stat .stableAlias = .ok := by
    simp [FS.stat, FS.resolve, FS.active, ha, ht]
  simp [removeAlias, hs, FS.remove, ha]

theorem start_ok (env : Env) (v : String) (w : World) (hp : env.pipeOk = true)
    (hs : env.startOk = true) :
    ∃ w1, start env v w = .ok () w1 ∧ w1.server = some ⟨"./bedrock_server", "bedrock-server"⟩ ∧
      w1.serverStdin = some ⟨false⟩ ∧ w1.updating = w.updating ∧ w1.fs = w.fs ∧
      w1.net = w.net ∧ w1.trace = w.trace ++ startTrace v := by
  obtain ⟨sv, si, u, fs, net, tr, sn⟩ := w
  simp only [start, World.emit, hp, hs, Bool.not_true, Bool.false_eq_true, if_false]
  exact ⟨_, rfl, rfl, rfl, rfl, rfl, rfl, by simp [startTrace]⟩

theorem phase_of_isDataLinkOp (e : Effect) (h : e.isDataLinkOp = true) :
    phase e = some .dataLinks := by
  cases e with
  | stat p => cases p <;> simp_all [Effect.isDataLinkOp, phase]
  | copy a b => cases a <;> cases b <;> simp_all [Effect.isDataLinkOp, phase]
  | remove p => cases p <;> simp_all [Effect.isDataLinkOp, phase]
  | symlink a b => cases a <;> cases b <;> simp_all [Effect.isDataLinkOp, phase]
  | _ => simp [Effect.isDataLinkOp] at h

theorem filterMap_phase_dataLinks (es : List Effect) (h : ∀ e ∈ es, e.isDataLinkOp = true) :
    es.filterMap phase = List.replicate es.length .dataLinks := by
  induction es with
  | nil => rfl
  | cons e es ih =>
    have he := phase_of_isDataLinkOp e (h e (by simp))
    rw [List.filterMap_cons_some he, ih (fun x hx => h x (by simp [hx]))]
    rfl

theorem filterMap_phase_effects (es : List Effect) :
    (effects es).filterMap phase = es.filterMap phase := by
  induction es with
  | nil => rfl
  | cons e es ih =>
    cases e <;> simp_all [effects, Effect.isLog, phase, List.filter_cons, List.filterMap_cons]

theorem compress_replicate (d : Phase) (k : Nat) (t : List Phase) :
    compress (d :: (List.replicate k d ++ t)) = compress (d :: t) := by
  induction k with
  | zero => rfl
  | succ k ih =>
    rw [List.replicate_succ, List.cons_append]
    rw [← ih]
    simp [compress]

theorem compress_cons_same (a : Phase) (t : List Phase) :
    compress (a :: a :: t) = compress (a :: t) := by
  simp [compress]

theorem compress_cons_ne (a b : Phase) (t : List Phase) (h : a ≠ b) :
    compress (a :: b :: t) = a :: compress (b :: t) := by
  simp [compress, h]

theorem compress_singleton (a : Phase) : compress [a] = [a] := rfl

theorem stopForUpdate_running (env : Env) (w : World) (c : Cmd) (p : Pipe)
    (hs : w.server = some c) (hp : w.serverStdin = some p) (hw : env.waitOk = true) :
    ∃ w1 es, stopForUpdate env w = .ok () w1 ∧ w1.server = none ∧ w1.serverStdin = none ∧
      w1.updating = true ∧ w1.fs = w.fs ∧ w1.net = w.net ∧
      w1.trace = w.trace ++ es ∧ es.filterMap phase = List.replicate 13 .shutdown := by
  obtain ⟨w1, es, h, s1, p1, u1, f1, n1, t1, e1⟩ := stop_running env
    ((World.emit { w with updating := true } (.setUpdating true)).emit
      (.log "Stopping bedrock_server...\n")) c p hs hp hw
  refine ⟨w1, [.setUpdating true, .log "Stopping bedrock_server...\n"] ++ es, ?_, s1, p1,
    u1, f1, n1, ?_, ?_⟩
  · simp only [stopForUpdate, hs]
    simp only [hs] at h
    exact h
  · rw [t1]
    simp
  · rw [List.filterMap_append, ← filterMap_phase_effects es, e1]
    rfl

theorem update_available (env : Env) (w : World) (c : Cmd) (p : Pipe) (v1 v2 : String)
    (rest : List Fetch) (hs : w.server = some c) (hp : w.serverStdin = some p)
    (hv : w.fs.readFile (.app "version") = some v1) (hne : v1 ≠ v2)
    (hn : w.net = .page (some v2) :: .page (some v2) :: rest) (hc : env.createOk = true)
    (hd : env.downloadOk = true) (hz : env.unzipOk = true) (hw : env.waitOk = true) :
    ∃ w1 es, update env w = .ok (some v2) w1 ∧ w1.server = none ∧ w1.serverStdin = none ∧
      w1.updating = true ∧ w1.net = rest ∧ w1.fs.aliasTarget = some v2 ∧
      w1.trace = w.trace ++ es ∧
      ∃ k, es.filterMap phase = updateMarks v2 ++ List.replicate (k + 1) .dataLinks := by
  obtain ⟨a, ha, hi⟩ := FS.stat_alias_of_readFile w.fs "version" v1 hv
  obtain ⟨wA, hA, sA, pA, uA, fA, nA, tA⟩ := checkForUpdates_page
    (w.emit (.log "Checking for Minecraft Bedrock Server updates...\n")) v1 v2
    (.page (some v2) :: rest) hv hn
  obtain ⟨wB, hB, sB, pB, uB, nB, aB, dB, iB, gB, tB⟩ := downloadBedrockServer_ok env
    (wA.emit (.log "A newer version is available, downloading...\n")) v2 rest nA hc hd hz
  obtain ⟨wC, esC, hC, sC, pC, uC, fC, nC, tC, eC⟩ := stopForUpdate_running env wB c p
    (sB.trans (sA.trans hs)) (pB.trans (pA.trans hp)) hw
  have haC : wC.fs.aliasTarget = some a := by
    rw [fC, aB]
    simp only [World.emit_fs, fA]
    exact ha
  have hiC : (wC.fs.installs.get a).isSome = true := by
    rw [fC]
    apply iB
    simp only [World.emit_fs, fA]
    exact hi
  obtain ⟨r1, r2, r3, r4, r5, r6⟩ := removeAlias_ok wC a haC hiC
  obtain ⟨wE, esE, hE, sE, pE, uE, nE, aE, tE, neE, dE⟩ :=
    initializeDirectory_ok v2 (removeAlias wC) r5
  refine ⟨wE, [.log "Checking for Minecraft Bedrock Server updates...\n"] ++
    ([.readFile (.app "version"), .log ("Current: " ++ v1 ++ "\n"),
      .log "Gathering latest minecraft version\n", .httpGet,
      .log ("Available: " ++ v2 ++ "\n")] ++
    ([.log "A newer version is available, downloading...\n"] ++ (downloadTrace v2 ++
    (esC ++ ([.stat .stableAlias, .remove .stableAlias] ++
    ([.symlink (.install v2) .stableAlias, .chmod (.app "bedrock_server")] ++ esE)))))),
    ?_, ?_, ?_, ?_, ?_, aE, ?_, ?_⟩
  · simp only [update, hA, decide_eq_true_eq, hne, ne_eq, not_false_eq_true, decide_True,
      Bool.not_true, Bool.false_eq_true, if_false, hB, hC, hE]
  · rw [sE, r1, sC]
  · rw [pE, r2, pC]
  · rw [uE, r3, uC]
  · rw [nE, r4, nC, nB]
  · rw [tE, r6, tC, tB]
    simp only [World.emit_trace, tA, List.append_assoc]
  · obtain ⟨k, hk⟩ := Nat.exists_eq_succ_of_ne_zero
      (fun h0 => neE (List.length_eq_zero.1 h0))
    refine ⟨k, ?_⟩
    simp only [List.filterMap_append, eC, filterMap_phase_dataLinks esE dE, hk]
    simp [phase, downloadTrace, updateMarks]

/-- C3 (amended): one poller iteration with a server running, installed version
`v1`, remote version `v2` different from `v1` and every external step
succeeding returns, and the stages it goes through are, in this order and each
in one piece: artifact provisioned for `v2`, graceful shutdown, alias removed,
alias created pointing at the directory of `v2`, data symlinks re-applied,
server restarted, "started" event for `v2` sent to the notifier, `updating`
cleared.  The notifier is informed before the flag is cleared. -/
theorem pollerStep_update_order (env : Env) (w : World) (c : Cmd) (p : Pipe) (v1 v2 : String)
    (rest : List Fetch) (hs : w.server = some c) (hp : w.serverStdin = some p)
    (hv : w.fs.readFile (.app "version") = some v1) (hne : v1 ≠ v2)
    (hn : w.net = .page (some v2) :: .page (some v2) :: rest) (hc : env.createOk = true)
    (hd : env.downloadOk = true) (hz : env.unzipOk = true) (hw : env.waitOk = true)
    (hpipe : env.pipeOk = true) (hstart : env.startOk = true) :
    ∃ w1 es, pollerStep env w = .ok () w1 ∧ w1.trace = w.trace ++ es ∧
      phases es = [.provisioned v2, .shutdown, .aliasRemoved, .aliasCreated v2, .dataLinks,
        .restarted, .started v2, .flagCleared] ∧
      w1.server.isSome = true ∧ w1.updating = false ∧ w1.fs.aliasTarget = some v2 := by
  obtain ⟨wU, esU, hU, _, _, uU, _, aU, tU, k, hk⟩ := update_available env
    (w.emit (.sleep (1000 * 3600 * 6))) c p v1 v2 rest hs hp hv hne hn hc hd hz hw
  obtain ⟨wS, hS, sS, _, _, fS, _, tS⟩ := start_ok env v2 wU hpipe hstart
  refine ⟨World.emit { wS with updating := false } (.setUpdating false),
    [.sleep (1000 * 3600 * 6)] ++ (esU ++ (startTrace v2 ++ [.setUpdating false])),
    ?_, ?_, ?_, ?_, rfl, ?_⟩
  · simp only [pollerStep, hU, uU, if_true, hS]
  · simp only [World.emit_trace, tS, tU, List.append_assoc]
  · simp only [phases, List.filterMap_append, hk]
    simp only [updateMarks, startTrace, List.filterMap_cons, List.filterMap_nil, phase,
      List.replicate_succ, List.cons_append, List.nil_append, List.append_assoc,
      List.replicate_zero]
    simp only [compress_cons_ne, ne_eq, reduceCtorEq, not_false_eq_true, compress_cons_same,
      compress_singleton, compress_replicate]
  · simp [sS]
  · simp only [World.emit_fs, fS, aU]

/-- C3 counterexample: in the update scenario (1.10.0.7 installed and running,
1.10.0.8 on the page, every step succeeding) the stages of the poller iteration
are not in the order the spec gives, which has `updating` cleared before the
notifier receives the "started" event. -/
theorem pollerStep_update_order_counterexample :
    phases (pollerStep okEnv updateWorld).world.trace ≠
      [.provisioned "1.10.0.8", .shutdown, .aliasRemoved, .aliasCreated "1.10.0.8",
       .dataLinks, .restarted, .flagCleared, .started "1.10.0.8"] := by
  decide

/-- C3 (amended), at the update scenario of the spec. -/
theorem pollerStep_update_order_witness :
    (updateWorld.server = some ⟨"./bedrock_server", "bedrock-server"⟩ ∧
      updateWorld.serverStdin = some ⟨false⟩ ∧
      updateWorld.fs.readFile (.app "version") = some "1.10.0.7" ∧ "1.10.0.7" ≠ "1.10.0.8") ∧
    ∃ w1 es, pollerStep okEnv updateWorld = .ok () w1 ∧ w1.trace = updateWorld.trace ++ es ∧
      phases es = [.provisioned "1.10.0.8", .shutdown, .aliasRemoved, .aliasCreated "1.10.0.8",
        .dataLinks, .restarted, .started "1.10.0.8", .flagCleared] ∧
      w1.server.isSome = true ∧ w1.updating = false ∧ w1.fs.aliasTarget = some "1.10.0.8" :=
  ⟨⟨rfl, rfl, by decide, by decide⟩,
    pollerStep_update_order okEnv updateWorld _ _ "1.10.0.7" "1.10.0.8" [] rfl rfl (by decide)
      (by decide) rfl rfl rfl rfl rfl rfl rfl⟩

/-- C1, at the update scenario's running server. -/
theorem stop_graceful_trace_witness :
    (updateWorld.server = some ⟨"./bedrock_server", "bedrock-server"⟩ ∧
      updateWorld.serverStdin = some ⟨false⟩ ∧ okEnv.waitOk = true) ∧
    ∃ w1 es, stop okEnv updateWorld = .ok () w1 ∧ w1.trace = updateWorld.trace ++ es ∧
      effects es =
        [.write "say shutting down in 30 seconds...\n", .sleep 5000,
         .write "say shutting down in 25 seconds...\n", .sleep 5000,
         .write "say shutting down in 20 seconds...\n", .sleep 5000,
         .write "say shutting down in 15 seconds...\n", .sleep 5000,
         .write "say shutting down in 10 seconds...\n", .sleep 5000,
         .write "say shutting down in 5 seconds...\n", .sleep 5000,
         .write "say shutting down NOW...\n", .sleep 5000, .write "stop\n", .wait, .close,
         .stopped, .setServerNil, .setStdinNil] ∧
      w1.server = none ∧ w1.serverStdin = none :=
  ⟨⟨rfl, rfl, rfl⟩, stop_graceful_trace okEnv updateWorld _ _ rfl rfl rfl⟩

/-- C2, at the update scenario's running server. -/
theorem terminate_immediate_trace_witness :
    (updateWorld.server = some ⟨"./bedrock_server", "bedrock-server"⟩ ∧
      updateWorld.serverStdin = some ⟨false⟩ ∧ okEnv.waitOk = true) ∧
    ∃ w1 es, terminate okEnv updateWorld = .ok () w1 ∧ w1.trace = updateWorld.trace ++ es ∧
      effects es =
        [.write "say shutting down NOW...\n", .sleep 5000, .write "stop\n", .wait, .close,
         .stopped, .setServerNil, .setStdinNil] ∧
      w1.server = none ∧ w1.serverStdin = none :=
  ⟨⟨rfl, rfl, rfl⟩, terminate_immediate_trace okEnv updateWorld _ _ rfl rfl rfl⟩

/-- C5, at installed 1.10.0.7 and remote 1.10.0.8. -/
theorem checkForUpdates_iff_differ_witness :
    (updateWorld.fs.readFile (.app "version") = some "1.10.0.7" ∧
      updateWorld.net = .page (some "1.10.0.8") :: [.page (some "1.10.0.8")]) ∧
    ∃ b w1, checkForUpdates updateWorld = .ok (b, some "1.10.0.8", false) w1 ∧
      (b = true ↔ "1.10.0.7" ≠ "1.10.0.8") :=
  ⟨⟨by decide, rfl⟩,
    checkForUpdates_iff_differ updateWorld "1.10.0.7" "1.10.0.8" _ (by decide) rfl⟩

/-- C7, at the update scenario with the page unreachable. -/
theorem update_fetch_failure_witness :
    (offlineWorld.fs.readFile (.app "version") = some "1.10.0.7" ∧
      (httpGet offlineWorld).1.failed = true) ∧
    ((∃ w1 es, update okEnv offlineWorld = .ok none w1 ∧ w1.server = offlineWorld.server ∧
      w1.serverStdin = offlineWorld.serverStdin ∧ w1.updating = offlineWorld.updating ∧
      w1.fs = offlineWorld.fs ∧ w1.trace = offlineWorld.trace ++ es ∧
      effects es = [.readFile (.app "version"), .httpGet]) ∧
    (∃ es, (pollerStep okEnv offlineWorld).world.trace = offlineWorld.trace ++ es ∧
      Effect.spawn ∉ es ∧ (∀ c, Effect.command c ∉ es) ∧
      (pollerStep okEnv offlineWorld).world.server = offlineWorld.server ∧
      (pollerStep okEnv offlineWorld).world.fs = offlineWorld.fs)) :=
  ⟨⟨by decide, by decide⟩,
    update_fetch_failure okEnv offlineWorld "1.10.0.7" (by decide) (by decide)⟩

theorem exitCondition_eq_false (s : Shared) : exitCondition s = false ↔ s.safe = true := by
  cases s with
  | mk a b => cases a <;> cases b <;> simp [exitCondition, Shared.safe]

/-- C4: the waiter's exit condition holds exactly when the process handle is
absent and `updating` is false; and for a poller iteration that begins with a
server running, whatever the network and the child do, the exit condition is
false in every state the iteration passes through, from its first step to its
last, so a waiter iteration reading any of those states does not exit. -/
theorem waiter_never_exits_during_update (env : Env) (w : World) (c : Cmd)
    (hs : w.server = some c) :
    (∀ w2 : World, exitCondition w2.shared = true ↔ (w2.server = none ∧ w2.updating = false)) ∧
    (∀ s ∈ (pollerStep env w).world.seen.drop w.seen.length, exitCondition s = false) ∧
    (∀ w2 : World, w2.shared ∈ (pollerStep env w).world.seen.drop w.seen.length →
      ∃ w3, waiterStep w2 = .ok () w3) := by
  have hinv : Inv w.seen.length w := ⟨le_refl _, by simp, by simp [hs]⟩
  obtain ⟨_, hall, _⟩ := inv_pollerStep env hinv
  refine ⟨?_, ?_, ?_⟩
  · intro w2
    cases h1 : w2.server <;> cases h2 : w2.updating <;>
      simp [exitCondition, World.shared, h1, h2]
  · intro s hmem
    exact (exitCondition_eq_false s).2 (hall s hmem)
  · intro w2 hmem
    have hsafe := (exitCondition_eq_false _).2 (hall _ hmem)
    refine ⟨w2.emit (.sleep 500), ?_⟩
    have hshared : (w2.emit (.sleep 500)).shared = w2.shared := rfl
    simp [waiterStep, hshared, hsafe]

/-- C4, at the update scenario: the iteration passes through 68 states,
among them states with the handle absent, and none lets the waiter exit. -/
theorem waiter_never_exits_during_update_witness :
    updateWorld.server = some ⟨"./bedrock_server", "bedrock-server"⟩ ∧
    ((pollerStep okEnv updateWorld).world.seen.drop updateWorld.seen.length).length = 68 ∧
    (⟨false, true⟩ : Shared) ∈
      (pollerStep okEnv updateWorld).world.seen.drop updateWorld.seen.length ∧
    ((∀ w2 : World, exitCondition w2.shared = true ↔
      (w2.server = none ∧ w2.updating = false)) ∧
    (∀ s ∈ (pollerStep okEnv updateWorld).world.seen.drop updateWorld.seen.length,
      exitCondition s = false) ∧
    (∀ w2 : World,
      w2.shared ∈ (pollerStep okEnv updateWorld).world.seen.drop updateWorld.seen.length →
      ∃ w3, waiterStep w2 = .ok () w3)) :=
  ⟨rfl, by decide, by decide, waiter_never_exits_during_update okEnv updateWorld _ rfl⟩

/-! ## Shutdown triggers -/

/-- C6: for every signal, `Shutdown` launches exactly one goroutine, which is
`stop` if and only if the signal is SIGQUIT and `terminate` if and only if it
is any other signal; `shutdownHandler` raises exactly SIGQUIT and
`shutdownNowHandler` exactly SIGTERM, so handing the raised signal to
`Shutdown` launches `stop` for the first and `terminate` for the second; the
two handlers are the ones routed at `/webhooks/shutdown` and
`/webhooks/shutdown/now`. -/
theorem Shutdown_one_variant (s : Nat) (w : World) :
    (∃ r, launched (Shutdown s w).trace = launched w.trace ++ [r] ∧
      (r = .stop ↔ s = SIGQUIT) ∧ (r = .terminate ↔ s ≠ SIGQUIT)) ∧
    raised (shutdownHandler w).trace = raised w.trace ++ [SIGQUIT] ∧
    raised (shutdownNowHandler w).trace = raised w.trace ++ [SIGTERM] ∧
    launched (Shutdown SIGQUIT (shutdownHandler w)).trace = launched w.trace ++ [.stop] ∧
    launched (Shutdown SIGTERM (shutdownNowHandler w)).trace = launched w.trace ++ [.terminate] ∧
    (route "/webhooks/shutdown").map (fun h => raised (h w).trace) =
      some (raised w.trace ++ [SIGQUIT]) ∧
    (route "/webhooks/shutdown/now").map (fun h => raised (h w).trace) =
      some (raised w.trace ++ [SIGTERM]) := by
  refine ⟨?_, ?_, ?_, ?_, ?_, ?_, ?_⟩
  · by_cases h : s = SIGQUIT
    · exact ⟨.stop, by simp [Shutdown, launched, h], by simp [h], by simp [h]⟩
    · exact ⟨.terminate, by simp [Shutdown, launched, h], by simp [h], by simp [h]⟩
  · simp [shutdownHandler, raised]
  · simp [shutdownNowHandler, raised]
  · simp [Shutdown, shutdownHandler, launched]
  · simp [Shutdown, shutdownNowHandler, launched, SIGTERM, SIGQUIT]
  · simp [route, shutdownHandler, raised]
  · simp [route, shutdownNowHandler, raised]

/-! ## Data links when the persistent copy exists -/

/-- C8 (the code at the failing input): with `/data/server.properties` present
and a regular `server.properties` in the active install, `symlink` only stats
the three paths and changes nothing: the persistent copy is untouched, but
`bedrock-server/server.properties` is still the package's regular file, not a
link to the persistent copy.  The same holds at the end of the update
scenario: the server restarted under 1.10.0.8 reads the package's default
file. -/
theorem symlink_skips_when_copy_exists :
    stagedWorld.fs.stat (.data "server.properties") = .ok ∧
    stagedWorld.fs.stat (.app "server.properties") = .ok ∧
    (symlink "server.properties" stagedWorld).trace =
      [.stat .dataDir, .stat (.app "server.properties"), .stat (.data "server.properties")] ∧
    (symlink "server.properties" stagedWorld).fs = stagedWorld.fs ∧
    (((symlink "server.properties" stagedWorld).fs.active).bind
      fun t => t.get "server.properties") = some (.node (.file "motd=default")) ∧
    (symlink "server.properties" stagedWorld).fs.readFile (.data "server.properties") =
      some "motd=mine" ∧
    (symlink "server.properties" stagedWorld).fs.readFile (.app "server.properties") =
      some "motd=default" ∧
    (pollerStep okEnv updateWorld).world.fs.readFile (.app "server.properties") =
      some "motd=default" ∧
    (pollerStep okEnv updateWorld).world.fs.readFile (.data "server.properties") =
      some "motd=mine" := by
  decide

/-! ## Startup -/

/-- C10 (the code at the failing input): on a fresh install `Startup` reports
the version it installed, which is the one in the version file; with an install
of 1.10.0.8 already present `Startup` contacts nothing, reads no file, and
reports "1.10.0.7" to the notifier although the version file of the active
install says "1.10.0.8". -/
theorem Startup_reports_fixed_version :
    (effects (Startup okEnv freshWorld).world.trace).getLast? = some (.started "1.10.0.8") ∧
    (Startup okEnv freshWorld).world.fs.readFile (.app "version") = some "1.10.0.8" ∧
    installedWorld.fs.stat .stableAlias = .ok ∧
    effects (Startup okEnv installedWorld).world.trace =
      [.stat .stableAlias, .command "./bedrock_server", .stdinPipe, .spawn,
       .started "1.10.0.7"] ∧
    (Startup okEnv installedWorld).world.fs.readFile (.app "version") = some "1.10.0.8" := by
  decide

end Minecraftd
